import Mathlib

/-!
# goserve: start-up path of the static web server

A shallow embedding of `src/goserve.go` (`init`, `readServerConfig`, `main`).
The process is modelled by explicit results: `init` either exits the process
with a code or leaves the global `cfg` for `main`; `main` issues calls on the
mux and creates one goroutine per supported listener.
-/

set_option autoImplicit false

namespace Goserve

/-! ## Configuration types -/

/-- Modelled from the spec: the type `Listener` is declared outside `goserve.go`.
Its fields are those `goserve.go` reads or writes (Protocol, Addr, Gzip,
Headers, KeyFile, CertFile), matching the `listeners` schema of the spec.
`Headers` is a Go `map[string]string`; it is kept as an association list, whose
emptiness is all `main` looks at. -/
structure Listener where
  Protocol : String := ""
  Addr : String := ""
  Gzip : Bool := false
  Headers : List (String × String) := []
  KeyFile : String := ""
  CertFile : String := ""
  deriving DecidableEq, Repr

/-- Modelled from the spec: the type `Serve` (`serves: [{path, target}]`) is
declared outside `goserve.go`. -/
structure Serve where
  Path : String := ""
  Target : String := ""
  deriving DecidableEq, Repr

/-- Modelled from the spec: the type of the elements of `cfg.Redirects`
(`redirects: [{from, to, code?}]`) is declared outside `goserve.go`. -/
structure Redirect where
  From : String := ""
  To : String := ""
  Code : Option Int := none
  deriving DecidableEq, Repr

/-- Modelled from the spec: the type of the elements of `cfg.Errors`
(`errors: [{status, file?, body?}]`) is declared outside `goserve.go`. -/
structure ErrorPage where
  Status : Int := 0
  File : Option String := none
  Body : Option String := none
  deriving DecidableEq, Repr

/-- Modelled from the spec: the type `ServerConfig` is declared outside
`goserve.go`; its four lists are the ones `init` and `main` use. The default
value is Go's zero value of the struct (all slices nil). -/
structure ServerConfig where
  Listeners : List Listener := []
  Serves : List Serve := []
  Redirects : List Redirect := []
  Errors : List ErrorPage := []
  deriving DecidableEq, Repr

/-! ## Command line and environment -/

/-- The variables behind the flags of lines 18-28, with the positional arguments
`flag.Parse()` leaves over. The defaults are those of the `flag.*` calls. -/
structure Flags where
  configPath : String := ""
  checkConfig : Bool := false
  httpEnabled : Bool := true
  httpAddr : String := ":8080"
  httpGzip : Bool := true
  httpsEnabled : Bool := false
  httpsAddr : String := ":8443"
  httpsGzip : Bool := true
  httpsKey : String := ""
  httpsCert : String := ""
  args : List String := []
  deriving DecidableEq, Repr

/-- The value `flag.Arg(0)` returns: the first positional argument, or the
empty string when there is none. -/
def Flags.arg0 (f : Flags) : String :=
  f.args.headD ""

/-! ### `flag.Parse()`

Line 30 runs the parser of Go's standard package `flag` on `os.Args[1:]`. The
flag set is the default one (`flag.CommandLine`, with `ExitOnError`): a command
line it rejects ends the process with status 2, and a request for help (`-h` or
`-help`, neither being a defined flag) prints the usage and ends the process
with status 0 (Go 1.15 and later; earlier releases used 2). The definitions
below follow `FlagSet.Parse` and `FlagSet.parseOne` of that package. -/

/-- The boolean values `strconv.ParseBool` accepts, which is what a boolean flag
written `-name=value` goes through. -/
def parseBool (s : String) : Option Bool :=
  if s ∈ ["1", "t", "T", "TRUE", "true", "True"] then some true
  else if s ∈ ["0", "f", "F", "FALSE", "false", "False"] then some false
  else none

/-- How a flag name was declared in lines 18-28. -/
inductive FlagKind where
  | bool
  | string
  | undefined
  deriving DecidableEq, Repr

/-- The flags declared with `flag.Bool` and with `flag.String` in lines 18-28. -/
def flagKind (name : String) : FlagKind :=
  if name ∈ ["check", "http", "http.gzip", "https", "https.gzip"] then .bool
  else if name ∈ ["config", "http.addr", "https.addr", "https.key", "https.cert"] then
    .string
  else .undefined

/-- The variable of a boolean flag gets a value. -/
def Flags.setBool (f : Flags) (name : String) (b : Bool) : Flags :=
  if name = "check" then { f with checkConfig := b }
  else if name = "http" then { f with httpEnabled := b }
  else if name = "http.gzip" then { f with httpGzip := b }
  else if name = "https" then { f with httpsEnabled := b }
  else if name = "https.gzip" then { f with httpsGzip := b }
  else f

/-- The variable of a string flag gets a value. -/
def Flags.setString (f : Flags) (name : String) (v : String) : Flags :=
  if name = "config" then { f with configPath := v }
  else if name = "http.addr" then { f with httpAddr := v }
  else if name = "https.addr" then { f with httpsAddr := v }
  else if name = "https.key" then { f with httpsKey := v }
  else if name = "https.cert" then { f with httpsCert := v }
  else f

/-- The text after the first character of a flag, cut at its first `=`: the rest
of the name, and the value when there is an `=`. -/
def splitEq : List Char → List Char × Option (List Char)
  | [] => ([], none)
  | c :: cs =>
    if c = '=' then ([], some cs)
    else ((c :: (splitEq cs).1), (splitEq cs).2)

/-- What `parseOne` makes of one argument before it looks the name up. -/
inductive Arg where
  | positional
  | terminator
  | bad
  | flag (name : String) (value : Option String)
  deriving DecidableEq, Repr

/-- The first half of `parseOne`: an argument shorter than two characters or not
starting with `-` is positional and ends the flags; `--` ends the flags and is
dropped; after one or two dashes a name that is empty or starts with `-` or `=`
is bad syntax; anything else is a flag, with the value after its first `=`. -/
def classify (s : String) : Arg :=
  match s.toList with
  | '-' :: c :: cs =>
    if c = '-' ∧ cs = [] then .terminator
    else
      match (if c = '-' then cs else c :: cs) with
      | [] => .bad
      | n :: ns =>
        if n = '-' ∨ n = '=' then .bad
        else .flag (String.mk (n :: (splitEq ns).1)) ((splitEq ns).2.map String.mk)
  | _ => .positional

/-- How `flag.Parse()` ends: it returns, with the flag variables set and the
positional arguments stored, or it ends the process with an exit code; the
flag variables set by then are kept in the result. -/
inductive ParseResult where
  | parsed (f : Flags)
  | exit (code : Nat) (f : Flags)
  deriving DecidableEq, Repr

/-- The flag variables when `flag.Parse()` ends, either way. -/
def ParseResult.flags : ParseResult → Flags
  | .parsed f => f
  | .exit _ f => f

/-- The loop of `FlagSet.Parse` over `parseOne`, from the left: an undefined
name is a request for help (exit 0) when it is `help` or `h` and an error
(exit 2) otherwise; a boolean flag takes the value after `=`, which must be a
boolean, or `true`; a string flag takes the value after `=` or else the next
argument, and it is an error when there is none. -/
def flagParse : List String → Flags → ParseResult
  | [], f => .parsed { f with args := [] }
  | s :: rest, f =>
    match classify s with
    | .positional => .parsed { f with args := s :: rest }
    | .terminator => .parsed { f with args := rest }
    | .bad => .exit 2 f
    | .flag name value =>
      match flagKind name with
      | .undefined => if name = "help" ∨ name = "h" then .exit 0 f else .exit 2 f
      | .bool =>
        match value with
        | none => flagParse rest (f.setBool name true)
        | some v =>
          match parseBool v with
          | none => .exit 2 f
          | some b => flagParse rest (f.setBool name b)
      | .string =>
        match value with
        | some v => flagParse rest (f.setString name v)
        | none =>
          match rest with
          | [] => .exit 2 f
          | v :: rest2 => flagParse rest2 (f.setString name v)

/-- What `init` calls and `goserve.go` does not define: the file system read by
`ioutil.ReadFile`, the YAML decoder `yaml.Unmarshal` (which fills the value it
is handed and returns an error or nil), and the methods `sanitise` and `check`
of `ServerConfig`. -/
structure World where
  readFile : String → Except String String
  unmarshal : String → ServerConfig → ServerConfig × Option String
  sanitise : ServerConfig → ServerConfig
  check : ServerConfig → Bool

/-! ## `readServerConfig` and `init` -/

/-- The function `readServerConfig` (lines 83-90): the named results `cfg` and
`err` start at their zero values; a read error returns at once, otherwise the
result of `yaml.Unmarshal(data, &cfg)` is returned. -/
def readServerConfig (w : World) (filename : String) : ServerConfig × Option String :=
  let cfg : ServerConfig := {}
  match w.readFile filename with
  | .error err => (cfg, some err)
  | .ok data => w.unmarshal data cfg

/-- Lines 33-50 of `init`: the listener slice built from the flags. -/
def flagListeners (f : Flags) : List Listener :=
  let ls : List Listener := []
  let ls := if f.httpEnabled then
      ls ++ [{ Protocol := "http", Addr := f.httpAddr, Gzip := f.httpGzip }]
    else ls
  let ls := if f.httpsEnabled then
      ls ++ [{ Protocol := "https", Addr := f.httpsAddr, Gzip := f.httpsGzip,
               KeyFile := f.httpsKey, CertFile := f.httpsCert }]
    else ls
  ls

/-- Lines 52-62 of `init`: the serve slice built from the first positional
argument. -/
def flagServes (f : Flags) : List Serve :=
  let target := f.arg0
  let target := if target = "" then "." else target
  [{ Path := "/", Target := target }]

/-- Lines 32-70 of `init`: the value of the global `cfg` when `cfg.sanitise()` is
reached, or the error that made `log.Fatalln` end the process. With an empty
`-config` the zero-valued global gets its `Listeners` and `Serves` assigned;
otherwise it is overwritten by the result of `readServerConfig`. -/
def loadConfig (w : World) (f : Flags) : Except String ServerConfig :=
  if f.configPath = "" then
    let cfg : ServerConfig := {}
    let cfg := { cfg with Listeners := flagListeners f }
    let cfg := { cfg with Serves := flagServes f }
    .ok cfg
  else
    match readServerConfig w f.configPath with
    | (_, some err) => .error err
    | (cfg, none) => .ok cfg

/-- How `init` ends: the process is gone (`os.Exit`, called directly, by
`flag.Parse()`, or by `log.Fatalln`, which exits with status 1), or `init` returns and the Go runtime
goes on to call `main` with the global `cfg`. -/
inductive InitResult where
  | exit (code : Nat)
  | ready (cfg : ServerConfig)
  deriving DecidableEq, Repr

/-- The function `init` (lines 17-81), run on the arguments of the command line
(`os.Args[1:]`): `flag.Parse()` may end the process; otherwise the
configuration is built or read, sanitised and checked. -/
def init (w : World) (argv : List String) : InitResult :=
  match flagParse argv {} with
  | .exit code _ => .exit code
  | .parsed f =>
    match loadConfig w f with
    | .error _ => .exit 1
    | .ok cfg =>
      let cfg := w.sanitise cfg
      if !w.check cfg then .exit 1
      else if f.checkConfig then .exit 0
      else .ready cfg

/-! ## Handlers and the mux -/

/-- Modelled from the spec: the handler variants of the data model,
`StaticServe{root}`, `Redirect{target, code}` and `ErrorPage{status, source}`;
the Go types behind `serve.handler()`, `redirect.handler()` and `e.handler()`
are declared outside `goserve.go`. -/
inductive Handler where
  | StaticServe (root : String)
  | Redirect (target : String) (code : Int)
  | ErrorPage (status : Int) (file : Option String) (body : Option String)
  deriving DecidableEq, Repr

/-- Modelled from the spec: `serve.handler()`, the static handler rooted at the
route's target (the method is defined outside `goserve.go`). -/
def Serve.handler (s : Serve) : Handler :=
  .StaticServe s.Target

/-- Modelled from the spec: `redirect.handler()`, a redirect to the configured
target with the configured status code, 302 when none is given (the method is
defined outside `goserve.go`). -/
def Redirect.handler (r : Redirect) : Handler :=
  .Redirect r.To (r.Code.getD 302)

/-- Modelled from the spec: `e.handler()`, the error page of the configured
status and source (the method is defined outside `goserve.go`). -/
def ErrorPage.handler (e : ErrorPage) : Handler :=
  .ErrorPage e.Status e.File e.Body

/-- Modelled from the spec: the type `StaticServeMux` is defined outside
`goserve.go`. The spec's Mux "owns an ordered set of Routes and a mapping from
HTTP status code to ErrorPage handler". -/
structure StaticServeMux where
  routes : List (String × Handler) := []
  errors : List (Int × Handler) := []
  deriving DecidableEq, Repr

/-- Modelled from the spec: `NewStaticServeMux()`, defined outside `goserve.go`:
a mux with no route and no error handler. -/
def NewStaticServeMux : StaticServeMux := {}

/-- Modelled from the spec: `mux.HandleError(status, handler)`, defined outside
`goserve.go`: the mapping from status code to error handler gets `handler` at
`status`, replacing an earlier entry for the same status. -/
def StaticServeMux.HandleError (m : StaticServeMux) (status : Int) (h : Handler) :
    StaticServeMux :=
  { m with errors := m.errors.filter (fun e => e.1 ≠ status) ++ [(status, h)] }

/-- Modelled from the spec: `mux.Handle(pattern, handler)`, defined outside
`goserve.go`. "Patterns are unique; registering a duplicate pattern must fail
fast at startup, not silently shadow": a pattern already in the route table
makes the call panic (the error result), any other is appended to the ordered
routes. -/
def StaticServeMux.Handle (m : StaticServeMux) (pattern : String) (h : Handler) :
    Except String StaticServeMux :=
  if pattern ∈ m.routes.map Prod.fst then
    .error ("multiple registrations for " ++ pattern)
  else
    .ok { m with routes := m.routes ++ [(pattern, h)] }

/-- The value of the variable `h` of `main` (lines 110-116): the mux, possibly
inside `CustomHeadersHandler`, possibly inside `GzipHandler`. The two wrappers
are defined outside `goserve.go` and are kept as constructors. -/
inductive HandlerChain where
  | mux (m : StaticServeMux)
  | CustomHeadersHandler (h : HandlerChain) (headers : List (String × String))
  | GzipHandler (h : HandlerChain)
  deriving DecidableEq, Repr

/-- The mux at the bottom of a handler chain. -/
def HandlerChain.innermost : HandlerChain → StaticServeMux
  | .mux m => m
  | .CustomHeadersHandler h _ => h.innermost
  | .GzipHandler h => h.innermost

/-! ## `main`: the main goroutine -/

/-- A call `main` makes on the mux. -/
inductive MuxCall where
  | HandleError (status : Int) (h : Handler)
  | Handle (pattern : String) (h : Handler)
  deriving DecidableEq, Repr

/-- A line `main` writes to the log (lines 107, 108 and 134). -/
inductive LogLine where
  | listen
  | listener (l : Listener)
  | unsupported (protocol : String)
  deriving DecidableEq, Repr

/-- A goroutine created by one of the two `go func() { ... }()` statements:
`tls` tells which (line 118 or line 126), `listener` is the instance of the
loop variable `listener` the function literal refers to, `h` is the variable
`h` of the iteration that created it. -/
structure Goroutine where
  tls : Bool
  listener : Nat
  h : HandlerChain
  deriving DecidableEq, Repr

/-- The state of the main goroutine while `main` runs: the mux, the calls made
on it so far, the message of a panic raised by `mux.Handle` (nothing runs
after it: `main` has no `recover`), the log, the instances of the loop variable
`listener` with their current values, and the goroutines created. -/
structure MainRun where
  mux : StaticServeMux := NewStaticServeMux
  calls : List MuxCall := []
  panic : Option String := none
  log : List LogLine := []
  store : List Listener := []
  spawned : List Goroutine := []
  deriving DecidableEq, Repr

/-- Lines 95-97: `for _, e := range cfg.Errors { mux.HandleError(...) }`. -/
def errorLoop : List ErrorPage → MainRun → MainRun
  | [], st => st
  | e :: rest, st =>
    errorLoop rest { st with
      mux := st.mux.HandleError e.Status e.handler
      calls := st.calls ++ [.HandleError e.Status e.handler] }

/-- Lines 98-100: `for _, serve := range cfg.Serves { mux.Handle(...) }`; a
panicking call ends the loop. -/
def serveLoop : List Serve → MainRun → MainRun
  | [], st => st
  | serve :: rest, st =>
    let st : MainRun := { st with calls := st.calls ++ [MuxCall.Handle serve.Path serve.handler] }
    match st.mux.Handle serve.Path serve.handler with
    | .error msg => { st with panic := some msg }
    | .ok mux => serveLoop rest { st with mux := mux }

/-- Lines 101-103: `for _, redirect := range cfg.Redirects { mux.Handle(...) }`;
a panicking call ends the loop. -/
def redirectLoop : List Redirect → MainRun → MainRun
  | [], st => st
  | redirect :: rest, st =>
    let st : MainRun := { st with calls := st.calls ++ [MuxCall.Handle redirect.From redirect.handler] }
    match st.mux.Handle redirect.From redirect.handler with
    | .error msg => { st with panic := some msg }
    | .ok mux => redirectLoop rest { st with mux := mux }

/-- Lines 110-116: the handler chain of one listener. -/
def listenerHandler (mux : StaticServeMux) (listener : Listener) : HandlerChain :=
  let h := HandlerChain.mux mux
  let h := if listener.Headers.length > 0 then
      HandlerChain.CustomHeadersHandler h listener.Headers
    else h
  let h := if listener.Gzip then HandlerChain.GzipHandler h else h
  h

/-- The scope of the variable of a `range` loop. Before Go 1.22 the loop has one
variable, assigned anew in every iteration, and every function literal of the
body refers to that one variable; from Go 1.22 on (for a module that asks for
it) every iteration has a variable of its own. -/
inductive LoopVar where
  | perLoop
  | perIteration
  deriving DecidableEq, Repr

/-- Lines 106-136, one iteration of `for _, listener := range cfg.Listeners`:
the loop variable gets the element, two lines are logged, `h` is built, and a
goroutine is created for "http" or "https"; any other protocol is logged. -/
def listenerStep (sem : LoopVar) (listener : Listener) (st : MainRun) : MainRun :=
  let ref := match sem with
    | .perLoop => 0
    | .perIteration => st.store.length
  let store := match sem with
    | .perLoop => [listener]
    | .perIteration => st.store ++ [listener]
  let st : MainRun :=
    { st with store := store, log := st.log ++ [LogLine.listen, LogLine.listener listener] }
  let h := listenerHandler st.mux listener
  if listener.Protocol = "http" then
    { st with spawned := st.spawned ++ [{ tls := false, listener := ref, h := h }] }
  else if listener.Protocol = "https" then
    { st with spawned := st.spawned ++ [{ tls := true, listener := ref, h := h }] }
  else
    { st with log := st.log ++ [LogLine.unsupported listener.Protocol] }

/-- Lines 106-136: the loop over `cfg.Listeners`, as the main goroutine runs
it. -/
def listenerLoop (sem : LoopVar) : List Listener → MainRun → MainRun
  | [], st => st
  | listener :: rest, st => listenerLoop sem rest (listenerStep sem listener st)

/-- Lines 93-103 of `main`: the mux is created and the three registration loops
run; a panic of `mux.Handle` skips what follows it. -/
def setupHandlers (cfg : ServerConfig) : MainRun :=
  let st : MainRun := { mux := NewStaticServeMux }
  let st := errorLoop cfg.Errors st
  let st := serveLoop cfg.Serves st
  if st.panic.isSome then st
  else redirectLoop cfg.Redirects st

/-- The function `main` (lines 92-136) up to the point where it waits for a
signal: the handlers are set up and, unless `mux.Handle` panicked, the listener
loop runs. -/
def main (sem : LoopVar) (cfg : ServerConfig) : MainRun :=
  let st := setupHandlers cfg
  if st.panic.isSome then st
  else listenerLoop sem cfg.Listeners st

/-! ## The goroutines of the listeners -/

/-- A call of `http.ListenAndServe(addr, h)` or of
`http.ListenAndServeTLS(addr, certFile, keyFile, h)`, with its arguments in the
order of the function's parameters. -/
inductive ServeCall where
  | ListenAndServe (addr : String) (h : HandlerChain)
  | ListenAndServeTLS (addr : String) (certFile : String) (keyFile : String)
      (h : HandlerChain)
  deriving DecidableEq, Repr

/-- The value a function literal reads from the variable `listener` it refers
to, given the current values of the instances of that variable. -/
def Goroutine.read (g : Goroutine) (store : List Listener) : Listener :=
  store.getD g.listener {}

/-- Lines 119 and 127: the call a listener goroutine makes when it runs; its
arguments are evaluated then, from the current value of `listener`. -/
def Goroutine.call (g : Goroutine) (store : List Listener) : ServeCall :=
  let listener := g.read store
  if g.tls then
    .ListenAndServeTLS listener.Addr listener.CertFile listener.KeyFile g.h
  else
    .ListenAndServe listener.Addr g.h

/-- What the serve call of a goroutine does: it keeps serving and never
returns, or it returns an error, or it returns nil. -/
inductive ServeResult where
  | serving
  | returned (err : Option String)
  deriving DecidableEq, Repr

/-- How a listener goroutine goes on after its serve call. -/
inductive TaskEnd where
  | blocked
  | fatal (exitCode : Nat)
  | listening (addr : String) (protocol : String)
  deriving DecidableEq, Repr

/-- Lines 120-123 and 128-131: after the serve call, a non-nil error goes to
`log.Fatalln`, which ends the process with status 1; otherwise the
"listening on" line is logged. -/
def Goroutine.after (g : Goroutine) (store : List Listener) : ServeResult → TaskEnd
  | .serving => .blocked
  | .returned (some _) => .fatal 1
  | .returned none => .listening (g.read store).Addr (g.read store).Protocol

/-- A step of the process during the listener loop: the main goroutine runs one
iteration, or the goroutine created `k`-th starts and makes its serve call. -/
inductive Action where
  | mainIteration
  | start (k : Nat)
  deriving DecidableEq, Repr

/-- The process during the listener loop: the listeners the loop has still to
visit, the state of the main goroutine, and the serve calls made so far, each
with the number of the goroutine that made it. -/
structure Proc where
  todo : List Listener
  run : MainRun
  served : List (Nat × ServeCall) := []
  deriving DecidableEq, Repr

/-- One step of the process. A goroutine starts once, after it was created. -/
def Proc.step (sem : LoopVar) (p : Proc) : Action → Proc
  | .mainIteration =>
    match p.todo with
    | [] => p
    | listener :: rest => { p with todo := rest, run := listenerStep sem listener p.run }
  | .start k =>
    match p.run.spawned.get? k with
    | none => p
    | some g =>
      if k ∈ p.served.map Prod.fst then p
      else { p with served := p.served ++ [(k, g.call p.run.store)] }

/-- The process after the steps of a schedule, from the point where `main`
enters the listener loop (which it does not reach after a panic). -/
def Proc.exec (sem : LoopVar) (cfg : ServerConfig) (schedule : List Action) : Proc :=
  let st := setupHandlers cfg
  schedule.foldl (Proc.step sem)
    { todo := if st.panic.isSome then [] else cfg.Listeners, run := st }

/-- The whole process: `init`, then `main` unless `init` ended the process. -/
inductive ProcessResult where
  | exitedInInit (code : Nat)
  | ranMain (run : MainRun)
  deriving DecidableEq, Repr

/-- The Go runtime runs `init`, and `main` only when `init` returns. -/
def process (w : World) (sem : LoopVar) (argv : List String) : ProcessResult :=
  match init w argv with
  | .exit code => .exitedInInit code
  | .ready cfg => .ranMain (main sem cfg)

/-! ## Example values -/

/-- A world with three files: `site.yaml` and `alt.yaml` stand for one listener
each, on port 9000 and on port 9001, and `broken.yaml` is no YAML. The decoder
knows these two documents and fails on any other text; `sanitise` changes nothing
and `check` asks for at least one listener. -/
def demoWorld : World where
  readFile name :=
    if name = "site.yaml" then .ok "addr: 9000"
    else if name = "alt.yaml" then .ok "addr: 9001"
    else if name = "broken.yaml" then .ok "addr: ["
    else .error "no such file"
  unmarshal data cfg :=
    if data = "addr: 9000" then
      ({ cfg with Listeners := [{ Protocol := "http", Addr := ":9000" }] }, none)
    else if data = "addr: 9001" then
      ({ cfg with Listeners := [{ Protocol := "http", Addr := ":9001" }] }, none)
    else (cfg, some "yaml: did not find expected node content")
  sanitise cfg := cfg
  check cfg := !cfg.Listeners.isEmpty

/-- The world `demoWorld` after `site.yaml` was overwritten with the text of
`alt.yaml` and every other file was removed. -/
def editedWorld : World where
  readFile name :=
    if name = "site.yaml" then .ok "addr: 9001"
    else .error "no such file"
  unmarshal := demoWorld.unmarshal
  sanitise := demoWorld.sanitise
  check := demoWorld.check

/-- A configuration with a plain and an encrypted listener and two routes. -/
def twoListeners : ServerConfig where
  Listeners :=
    [{ Protocol := "http", Addr := ":8080", Gzip := true },
     { Protocol := "https", Addr := ":8443", Gzip := true,
       KeyFile := "key.pem", CertFile := "cert.pem" }]
  Serves := [{ Path := "/", Target := "." }]
  Redirects := [{ From := "/old/", To := "/new/" }]
  Errors := [{ Status := 404, Body := some "not found" }]

/-- A configuration whose serve path is also the source of a redirect. -/
def clashing : ServerConfig where
  Listeners := [{ Protocol := "http", Addr := ":8080" }]
  Serves := [{ Path := "/", Target := "." }, { Path := "/docs/", Target := "docs" }]
  Redirects := [{ From := "/docs/", To := "/manual/" }]

/-! ## Definitions used in the statements -/

/-- The calls one registration loop makes on a list of routes, written once for
the loops over the serves and over the redirects. -/
def registerLoop : List (String × Handler) → MainRun → MainRun
  | [], st => st
  | r :: rest, st =>
    let st : MainRun := { st with calls := st.calls ++ [MuxCall.Handle r.1 r.2] }
    match st.mux.Handle r.1 r.2 with
    | .error msg => { st with panic := some msg }
    | .ok mux => registerLoop rest { st with mux := mux }

/-- The routes of a configuration in the order `main` registers them. -/
def routesOf (cfg : ServerConfig) : List (String × Handler) :=
  cfg.Serves.map (fun s => (s.Path, s.handler)) ++
    cfg.Redirects.map (fun r => (r.From, r.handler))

/-- The protocols for which `main` creates a goroutine. -/
def supported (l : Listener) : Bool :=
  l.Protocol = "http" || l.Protocol = "https"

/-- The route a `Handle` call registers; none for a `HandleError` call. -/
def MuxCall.route : MuxCall → Option (String × Handler)
  | .Handle pattern h => some (pattern, h)
  | .HandleError _ _ => none

/-- The `Handle` calls among the calls made on the mux, in order. -/
def handleCalls (calls : List MuxCall) : List (String × Handler) :=
  calls.filterMap MuxCall.route

/-- The serve call the source text of `main` describes for a listener with
protocol "http" or "https": its own address, its own handler chain and, for
https, its own certificate and key files. -/
def ownCall (mux : StaticServeMux) (l : Listener) : ServeCall :=
  if l.Protocol = "http" then .ListenAndServe l.Addr (listenerHandler mux l)
  else .ListenAndServeTLS l.Addr l.CertFile l.KeyFile (listenerHandler mux l)

/-- Every goroutine created so far belongs to the supported listener of the same
rank among those visited, and its variable holds that listener. -/
def OwnVariables (st : MainRun) : Prop :=
  st.spawned.length = (st.store.filter supported).length ∧
  ∀ (k : Nat) (g : Goroutine), st.spawned[k]? = some g →
    ∃ l, (st.store.filter supported)[k]? = some l ∧ st.store[g.listener]? = some l ∧
      g.call st.store = ownCall st.mux l

/-- What holds of the process at every step when each iteration has its own
variable: the goroutines own their variables, the listeners visited and those
left make up the configured list, the mux is the one built, and every serve
call made is the own call of the supported listener of the same rank. -/
def OwnCalls (ls : List Listener) (mux : StaticServeMux) (p : Proc) : Prop :=
  OwnVariables p.run ∧ p.run.store ++ p.todo = ls ∧ p.run.mux = mux ∧
  ∀ (k : Nat) (c : ServeCall), (k, c) ∈ p.served →
    ∃ l, (ls.filter supported)[k]? = some l ∧ c = ownCall mux l

/-! ## `init` -/

/-- C7: with an empty `-config`, the listeners `init` builds are the http
listener (protocol "http", `-http.addr`, `-http.gzip`) exactly when `-http` is
set, followed by the https listener (protocol "https", `-https.addr`,
`-https.gzip`, `-https.key` as key file, `-https.cert` as cert file) exactly
when `-https` is set; with every flag at its default the list is the single
listener http, ":8080", gzip on. -/
theorem flag_listeners (w : World) (f : Flags) (h : f.configPath = "") :
    (∃ cfg, loadConfig w f = .ok cfg ∧
      cfg.Listeners =
        (if f.httpEnabled then
          [({ Protocol := "http", Addr := f.httpAddr, Gzip := f.httpGzip,
              Headers := [], KeyFile := "", CertFile := "" } : Listener)]
         else []) ++
        (if f.httpsEnabled then
          [({ Protocol := "https", Addr := f.httpsAddr, Gzip := f.httpsGzip,
              Headers := [], KeyFile := f.httpsKey, CertFile := f.httpsCert } : Listener)]
         else [])) ∧
    loadConfig w {} = .ok
      { Listeners := [{ Protocol := "http", Addr := ":8080", Gzip := true,
                        Headers := [], KeyFile := "", CertFile := "" }],
        Serves := [{ Path := "/", Target := "." }],
        Redirects := [],
        Errors := [] } := by
  refine ⟨⟨_, by simp only [loadConfig, h, if_true]; rfl, ?_⟩, ?_⟩
  · cases hh : f.httpEnabled <;> cases hs : f.httpsEnabled <;> simp [flagListeners, hh, hs]
  · rfl

/-- An instance of C7: http switched off, https switched on with its own address
and TLS files. -/
theorem flag_listeners_witness :
    (∃ cfg, loadConfig demoWorld
        { httpEnabled := false, httpsEnabled := true, httpsAddr := ":4443",
          httpsKey := "k.pem", httpsCert := "c.pem" } = .ok cfg ∧
      cfg.Listeners =
        [{ Protocol := "https", Addr := ":4443", Gzip := true,
           Headers := [], KeyFile := "k.pem", CertFile := "c.pem" }]) := by
  have h := (flag_listeners demoWorld
    { httpEnabled := false, httpsEnabled := true, httpsAddr := ":4443",
      httpsKey := "k.pem", httpsCert := "c.pem" } rfl).1
  simpa using h

/-- C8: with an empty `-config`, the serves `init` builds are the single route
with path "/" whose target is the first positional argument, or "." when that
argument is absent or empty; there are no redirects and no error pages. -/
theorem flag_serves (w : World) (f : Flags) (h : f.configPath = "") :
    ∃ cfg, loadConfig w f = .ok cfg ∧
      cfg.Serves =
        [{ Path := "/",
           Target := match f.args with
             | [] => "."
             | a :: _ => if a = "" then "." else a }] ∧
      cfg.Redirects = [] ∧ cfg.Errors = [] := by
  refine ⟨_, by simp only [loadConfig, h, if_true]; rfl, ?_, rfl, rfl⟩
  cases hargs : f.args <;> simp [flagServes, Flags.arg0, hargs]

/-- Instances of C8: a directory named on the command line, and none. -/
theorem flag_serves_witness :
    (∃ cfg, loadConfig demoWorld { args := ["public", "ignored"] } = .ok cfg ∧
      cfg.Serves = [{ Path := "/", Target := "public" }] ∧
      cfg.Redirects = [] ∧ cfg.Errors = []) ∧
    (∃ cfg, loadConfig demoWorld { args := [] } = .ok cfg ∧
      cfg.Serves = [{ Path := "/", Target := "." }] ∧
      cfg.Redirects = [] ∧ cfg.Errors = []) :=
  ⟨by simpa using flag_serves demoWorld { args := ["public", "ignored"] } rfl,
   by simpa using flag_serves demoWorld { args := [] } rfl⟩

/-! ## `flag.Parse()` and the loading of the configuration -/

theorem flagParse_exit_code (argv : List String) (f g : Flags) (code : Nat)
    (h : flagParse argv f = .exit code g) : code = 0 ∨ code = 2 := by
  induction argv, f using flagParse.induct <;> simp_all [flagParse]

/-- An exit of `flag.Parse()` with status 0 comes from an argument that names the
undefined flag `help` or `h`. -/
theorem flagParse_exit_zero (argv : List String) (f g : Flags)
    (h : flagParse argv f = .exit 0 g) :
    ∃ s ∈ argv, ∃ name value, classify s = .flag name value ∧ (name = "help" ∨ name = "h") := by
  induction argv, f using flagParse.induct <;> simp_all [flagParse]

/-- With a file named by `-config`, the configuration loaded is the value the
decoder makes, without error, of the contents of that file, starting from the
zero value. -/
theorem loadConfig_file (w : World) (f : Flags) (hf : f.configPath ≠ "") (cfg : ServerConfig) :
    loadConfig w f = .ok cfg ↔
      ∃ data, w.readFile f.configPath = .ok data ∧ w.unmarshal data {} = (cfg, none) := by
  unfold loadConfig readServerConfig
  rw [if_neg hf]
  cases hr : w.readFile f.configPath with
  | error e => simp
  | ok data =>
    rcases hu : w.unmarshal data {} with ⟨c, e⟩
    cases e with
    | none => simp [hu]
    | some e => simp [hu]

theorem loadConfig_read_error (w : World) (f : Flags) (hf : f.configPath ≠ "") (err : String)
    (h : w.readFile f.configPath = .error err) : loadConfig w f = .error err := by
  unfold loadConfig readServerConfig
  rw [if_neg hf, h]

theorem loadConfig_decode_error (w : World) (f : Flags) (hf : f.configPath ≠ "")
    (data err : String) (cfg : ServerConfig) (h : w.readFile f.configPath = .ok data)
    (hu : w.unmarshal data {} = (cfg, some err)) : loadConfig w f = .error err := by
  unfold loadConfig readServerConfig
  rw [if_neg hf, h]
  simp only [hu]

theorem init_parsed (w : World) (argv : List String) (f : Flags)
    (h : flagParse argv {} = .parsed f) :
    init w argv =
      match loadConfig w f with
      | .error _ => .exit 1
      | .ok cfg =>
        if w.check (w.sanitise cfg) then
          if f.checkConfig then .exit 0 else .ready (w.sanitise cfg)
        else .exit 1 := by
  unfold init
  rw [h]
  simp only
  cases hl : loadConfig w f with
  | error e => rfl
  | ok cfg => cases hc : w.check (w.sanitise cfg) <;> simp [hc]

theorem process_parsed (w : World) (sem : LoopVar) (argv : List String) (f : Flags)
    (h : flagParse argv {} = .parsed f) :
    process w sem argv =
      match loadConfig w f with
      | .error _ => .exitedInInit 1
      | .ok cfg =>
        if w.check (w.sanitise cfg) then
          if f.checkConfig then .exitedInInit 0 else .ranMain (main sem (w.sanitise cfg))
        else .exitedInInit 1 := by
  unfold process
  rw [init_parsed w argv f h]
  cases hl : loadConfig w f with
  | error e => rfl
  | ok cfg =>
    cases hc : w.check (w.sanitise cfg) with
    | false => simp [hc]
    | true => cases hk : f.checkConfig <;> simp [hc, hk]

theorem process_exit (w : World) (sem : LoopVar) (argv : List String) (f : Flags) (code : Nat)
    (h : flagParse argv {} = .exit code f) : process w sem argv = .exitedInInit code := by
  unfold process init
  rw [h]

/-! ## `init` with a configuration file -/

/-- C9: with a non-empty `-config`, the configuration that reaches
`sanitise`/`check` is the value `yaml.Unmarshal` decodes, without error, from
the contents of the file of that name, starting from the zero value; a second
command line with the same `-config`, run where that file has the same
contents and the decoder is the same, loads the same configuration (or fails
with the same error), whatever its other flags and positional arguments are;
and it is this value that `init` sanitises, checks and leaves for `main`. -/
theorem config_file_only (w v : World) (f g : Flags) (hf : f.configPath ≠ "")
    (hfg : g.configPath = f.configPath)
    (hfile : v.readFile f.configPath = w.readFile f.configPath)
    (hyaml : ∀ data, v.unmarshal data {} = w.unmarshal data {}) :
    (∀ cfg, loadConfig w f = .ok cfg ↔
      ∃ data, w.readFile f.configPath = .ok data ∧ w.unmarshal data {} = (cfg, none)) ∧
    loadConfig v g = loadConfig w f ∧
    (∀ argv data cfg, flagParse argv {} = .parsed f →
      w.readFile f.configPath = .ok data → w.unmarshal data {} = (cfg, none) →
      init w argv =
        if w.check (w.sanitise cfg) then
          if f.checkConfig then .exit 0 else .ready (w.sanitise cfg)
        else .exit 1) := by
  refine ⟨loadConfig_file w f hf, ?_, ?_⟩
  · have hg : g.configPath ≠ "" := hfg ▸ hf
    unfold loadConfig readServerConfig
    rw [if_neg hf, if_neg hg, hfg, hfile]
    cases w.readFile f.configPath with
    | error e => rfl
    | ok data => simp only [hyaml data]
  · intro argv data cfg hp hr hu
    rw [init_parsed w argv f hp, (loadConfig_file w f hf cfg).2 ⟨data, hr, hu⟩]

/-- Instances of C9: two command lines naming `site.yaml`, with every other flag
and the positional argument different, load the configuration decoded from
that file; the same path with other contents loads those other contents. -/
theorem config_file_only_witness :
    loadConfig demoWorld (flagParse ["-config", "site.yaml"] {}).flags =
      .ok { Listeners := [{ Protocol := "http", Addr := ":9000" }] } ∧
    loadConfig demoWorld
        (flagParse ["-http=false", "-http.addr", ":1", "-https", "-https.key=k",
          "-config=site.yaml", "elsewhere"] {}).flags =
      .ok { Listeners := [{ Protocol := "http", Addr := ":9000" }] } ∧
    loadConfig editedWorld (flagParse ["-config", "site.yaml"] {}).flags =
      .ok { Listeners := [{ Protocol := "http", Addr := ":9001" }] } := by
  obtain ⟨h1, h2, -⟩ := config_file_only demoWorld demoWorld
    (flagParse ["-config", "site.yaml"] {}).flags
    (flagParse ["-http=false", "-http.addr", ":1", "-https", "-https.key=k",
      "-config=site.yaml", "elsewhere"] {}).flags
    (by decide) (by decide) rfl (fun _ => rfl)
  have h0 : loadConfig demoWorld (flagParse ["-config", "site.yaml"] {}).flags =
      .ok { Listeners := [{ Protocol := "http", Addr := ":9000" }] } :=
    (h1 _).2 ⟨"addr: 9000", rfl, rfl⟩
  obtain ⟨e1, -, -⟩ := config_file_only editedWorld editedWorld
    (flagParse ["-config", "site.yaml"] {}).flags
    (flagParse ["-config", "site.yaml"] {}).flags (by decide) rfl rfl (fun _ => rfl)
  exact ⟨h0, h2.trans h0, (e1 _).2 ⟨"addr: 9001", rfl, rfl⟩⟩

/-! ## `init`: the check mode and the guard of `main` -/

/-- C2, as amended: when the command line sets `-check` (the flag variable is
true when `flag.Parse()` ends, or `flag.Parse()` ends the process before it
has gone through the whole command line), the process ends in `init`, so
`main` builds no mux and starts no listener; the exit code is 0
exactly when `flag.Parse()` ended the process on a request for help (an
argument naming `-h` or `-help`) or `flag.Parse()` returned, a configuration
was loaded (from the contents of the `-config` file when one is named) and
`check` returned true on its sanitised value; otherwise the code is 1
(`log.Fatalln`) or 2 (a command line `flag.Parse()` rejects). -/
theorem check_mode (w : World) (sem : LoopVar) (argv : List String)
    (h : (flagParse argv {}).flags.checkConfig = true ∨
      ∃ code g, flagParse argv {} = .exit code g) :
    ∃ code, process w sem argv = .exitedInInit code ∧
      (code = 0 ↔
        (∃ f, flagParse argv {} = .exit 0 f ∧
          ∃ s ∈ argv, ∃ name value,
            classify s = .flag name value ∧ (name = "help" ∨ name = "h")) ∨
        (∃ f cfg, flagParse argv {} = .parsed f ∧ loadConfig w f = .ok cfg ∧
          (f.configPath ≠ "" →
            ∃ data, w.readFile f.configPath = .ok data ∧ w.unmarshal data {} = (cfg, none)) ∧
          w.check (w.sanitise cfg) = true)) ∧
      (code ≠ 0 → code = 1 ∨ code = 2) := by
  cases hp : flagParse argv {} with
  | exit c g =>
    refine ⟨c, process_exit w sem argv g c hp, ⟨?_, ?_⟩, ?_⟩
    · rintro rfl
      exact Or.inl ⟨g, rfl, flagParse_exit_zero argv {} g hp⟩
    · rintro (⟨f, hf, -⟩ | ⟨f, cfg, hf, -⟩)
      · cases hf
        rfl
      · cases hf
    · intro hne
      rcases flagParse_exit_code argv {} g c hp with h0 | h2
      · exact absurd h0 hne
      · exact Or.inr h2
  | parsed f =>
    have hk : f.checkConfig = true := by
      rcases h with h | ⟨c, g, hg⟩
      · rw [hp] at h
        exact h
      · rw [hp] at hg
        cases hg
    rw [process_parsed w sem argv f hp]
    cases hl : loadConfig w f with
    | error e =>
      refine ⟨1, rfl, ⟨by simp, ?_⟩, fun _ => Or.inl rfl⟩
      rintro (⟨g, hg, -⟩ | ⟨g, cfg, hg, hcfg, -⟩)
      · cases hg
      · cases hg
        rw [hl] at hcfg
        cases hcfg
    | ok cfg =>
      cases hc : w.check (w.sanitise cfg) with
      | false =>
        refine ⟨1, by simp [hc], ⟨by simp, ?_⟩, fun _ => Or.inl rfl⟩
        rintro (⟨g, hg, -⟩ | ⟨g, cfg2, hg, hcfg, -, hchk⟩)
        · cases hg
        · cases hg
          rw [hl] at hcfg
          cases hcfg
          rw [hc] at hchk
          cases hchk
      | true =>
        refine ⟨0, by simp [hc, hk], ⟨fun _ => Or.inr ⟨f, cfg, rfl, hl, ?_, hc⟩, fun _ => rfl⟩,
          fun hne => absurd rfl hne⟩
        intro hne
        exact (loadConfig_file w f hne cfg).1 hl

/-- Instances of C2 as amended: a configuration that passes gives code 0, an
unreadable file gives code 1. -/
theorem check_mode_witness :
    process demoWorld .perLoop ["-config", "site.yaml", "-check"] = .exitedInInit 0 ∧
    process demoWorld .perLoop ["-check", "-config", "missing.yaml"] = .exitedInInit 1 := by
  obtain ⟨c, hc, hzero, -⟩ := check_mode demoWorld .perLoop
    ["-config", "site.yaml", "-check"] (Or.inl (by decide))
  obtain ⟨d, hd, hdzero, hone⟩ := check_mode demoWorld .perLoop
    ["-check", "-config", "missing.yaml"] (Or.inl (by decide))
  have hc0 : c = 0 := hzero.2 (Or.inr ⟨_, _, rfl, rfl, fun _ =>
    ⟨"addr: 9000", rfl, rfl⟩, rfl⟩)
  have hd1 : d = 1 := by
    have hpd : process demoWorld .perLoop ["-check", "-config", "missing.yaml"] =
        .exitedInInit 1 := by decide
    rw [hpd] at hd
    cases hd
    rfl
  exact ⟨hc0 ▸ hc, hd1 ▸ hd⟩

/-- C2 as stated fails at `-check -config missing.yaml -h`: the command line sets
`-check`, the process exits with code 0, yet the file is never read, no
configuration is loaded and `check` returns true on nothing. -/
theorem check_mode_help_exits_zero :
    (flagParse ["-check", "-config", "missing.yaml", "-h"] {}).flags.checkConfig = true ∧
    process demoWorld .perLoop ["-check", "-config", "missing.yaml", "-h"] =
      .exitedInInit 0 ∧
    ¬ ∃ cfg, loadConfig demoWorld
        (flagParse ["-check", "-config", "missing.yaml", "-h"] {}).flags = .ok cfg ∧
      demoWorld.check (demoWorld.sanitise cfg) = true := by
  refine ⟨by decide, by decide, ?_⟩
  rintro ⟨cfg, hcfg, -⟩
  have hl : loadConfig demoWorld
      (flagParse ["-check", "-config", "missing.yaml", "-h"] {}).flags =
        .error "no such file" := rfl
  rw [hl] at hcfg
  cases hcfg

/-- C3, as amended: whenever `flag.Parse()` returns, with or without `-check`, a
`-config` file that cannot be read, a `-config` file whose contents the
decoder rejects, and a sanitised configuration on which `check` returns false
each end the process in `init` with exit code 1; when `flag.Parse()` itself
ends the process (code 0 on a request for help, code 2 on a command line it
rejects) `main` does not run either; and whenever `main` runs, its
configuration is a loaded configuration (decoded without error from the file
when one is named) after `sanitise`, on which `check` returned true. -/
theorem init_guards_main (w : World) (sem : LoopVar) (argv : List String) :
    (∀ f, flagParse argv {} = .parsed f → f.configPath ≠ "" →
      (∀ err, w.readFile f.configPath = .error err →
        process w sem argv = .exitedInInit 1) ∧
      (∀ data cfg err, w.readFile f.configPath = .ok data →
        w.unmarshal data {} = (cfg, some err) → process w sem argv = .exitedInInit 1)) ∧
    (∀ f cfg, flagParse argv {} = .parsed f → loadConfig w f = .ok cfg →
      w.check (w.sanitise cfg) = false → process w sem argv = .exitedInInit 1) ∧
    (∀ code f, flagParse argv {} = .exit code f →
      process w sem argv = .exitedInInit code ∧ (code = 0 ∨ code = 2)) ∧
    (∀ run, process w sem argv = .ranMain run →
      ∃ f raw, flagParse argv {} = .parsed f ∧ f.checkConfig = false ∧
        loadConfig w f = .ok raw ∧
        (f.configPath ≠ "" →
          ∃ data, w.readFile f.configPath = .ok data ∧ w.unmarshal data {} = (raw, none)) ∧
        w.check (w.sanitise raw) = true ∧ run = main sem (w.sanitise raw)) := by
  refine ⟨?_, ?_, ?_, ?_⟩
  · intro f hp hf
    constructor
    · intro err hr
      rw [process_parsed w sem argv f hp, loadConfig_read_error w f hf err hr]
    · intro data cfg err hr hu
      rw [process_parsed w sem argv f hp, loadConfig_decode_error w f hf data err cfg hr hu]
  · intro f cfg hp hl hc
    rw [process_parsed w sem argv f hp, hl]
    simp [hc]
  · intro code f hp
    exact ⟨process_exit w sem argv f code hp, flagParse_exit_code argv {} f code hp⟩
  · intro run hr
    cases hp : flagParse argv {} with
    | exit c g =>
      rw [process_exit w sem argv g c hp] at hr
      cases hr
    | parsed f =>
      rw [process_parsed w sem argv f hp] at hr
      cases hl : loadConfig w f with
      | error e =>
        rw [hl] at hr
        cases hr
      | ok raw =>
        rw [hl] at hr
        cases hc : w.check (w.sanitise raw) with
        | false => simp [hc] at hr
        | true =>
          cases hk : f.checkConfig with
          | true => simp [hc, hk] at hr
          | false =>
            simp [hc, hk] at hr
            exact ⟨f, raw, rfl, hk, hl, fun hne => (loadConfig_file w f hne raw).1 hl, hc,
              hr.symm⟩

/-- Instances of C3 as amended: a missing file, a file that is no YAML, a
configuration `check` refuses (no listener), and a run that reaches `main`. -/
theorem init_guards_main_witness :
    process demoWorld .perLoop ["-config", "missing.yaml"] = .exitedInInit 1 ∧
    process demoWorld .perLoop ["-config", "broken.yaml"] = .exitedInInit 1 ∧
    process demoWorld .perLoop ["-http=false"] = .exitedInInit 1 ∧
    ∃ raw, loadConfig demoWorld (flagParse ["-config", "site.yaml"] {}).flags = .ok raw ∧
      demoWorld.check (demoWorld.sanitise raw) = true ∧
      process demoWorld .perLoop ["-config", "site.yaml"] =
        .ranMain (main .perLoop (demoWorld.sanitise raw)) := by
  refine ⟨?_, ?_, ?_, ?_⟩
  · exact ((init_guards_main demoWorld .perLoop ["-config", "missing.yaml"]).1
      _ rfl (by decide)).1 "no such file" rfl
  · exact ((init_guards_main demoWorld .perLoop ["-config", "broken.yaml"]).1
      _ rfl (by decide)).2 "addr: [" {} "yaml: did not find expected node content" rfl rfl
  · exact (init_guards_main demoWorld .perLoop ["-http=false"]).2.1 _ _ rfl rfl rfl
  · have hrun : process demoWorld .perLoop ["-config", "site.yaml"] =
        .ranMain (main .perLoop { Listeners := [{ Protocol := "http", Addr := ":9000" }] }) :=
      rfl
    obtain ⟨f, raw, hp, -, hl, -, hc, hmain⟩ :=
      (init_guards_main demoWorld .perLoop ["-config", "site.yaml"]).2.2.2 _ hrun
    refine ⟨raw, ?_, hc, hrun.trans (congrArg _ hmain)⟩
    rw [hp]
    exact hl

/-- C3 as stated fails at `-config missing.yaml -h`: the file named by `-config`
cannot be read, yet the process ends with exit code 0, not fatally. -/
theorem unreadable_config_help_exits_zero :
    (flagParse ["-config", "missing.yaml", "-h"] {}).flags.configPath = "missing.yaml" ∧
    demoWorld.readFile "missing.yaml" = .error "no such file" ∧
    process demoWorld .perLoop ["-config", "missing.yaml", "-h"] = .exitedInInit 0 := by
  refine ⟨by decide, rfl, by decide⟩

/-! ## `main`: the registration loops -/

theorem serveLoop_eq (ss : List Serve) (st : MainRun) :
    serveLoop ss st = registerLoop (ss.map (fun s => (s.Path, s.handler))) st := by
  induction ss generalizing st with
  | nil => rfl
  | cons s rest ih =>
    simp only [serveLoop, List.map_cons, registerLoop]
    cases st.mux.Handle s.Path s.handler with
    | error msg => rfl
    | ok m => exact ih _

theorem redirectLoop_eq (rs : List Redirect) (st : MainRun) :
    redirectLoop rs st = registerLoop (rs.map (fun r => (r.From, r.handler))) st := by
  induction rs generalizing st with
  | nil => rfl
  | cons r rest ih =>
    simp only [redirectLoop, List.map_cons, registerLoop]
    cases st.mux.Handle r.From r.handler with
    | error msg => rfl
    | ok m => exact ih _

theorem errorLoop_calls (es : List ErrorPage) (st : MainRun) :
    (errorLoop es st).calls =
      st.calls ++ es.map (fun e => MuxCall.HandleError e.Status e.handler) := by
  induction es generalizing st with
  | nil => simp [errorLoop]
  | cons e rest ih => simp [errorLoop, ih]

theorem errorLoop_rest (es : List ErrorPage) (st : MainRun) :
    (errorLoop es st).panic = st.panic ∧ (errorLoop es st).mux.routes = st.mux.routes ∧
      (errorLoop es st).spawned = st.spawned ∧ (errorLoop es st).log = st.log ∧
      (errorLoop es st).store = st.store := by
  induction es generalizing st with
  | nil => simp [errorLoop]
  | cons e rest ih =>
    simp only [errorLoop]
    obtain ⟨h1, h2, h3, h4, h5⟩ := ih
      { st with
        mux := st.mux.HandleError e.Status e.handler
        calls := st.calls ++ [.HandleError e.Status e.handler] }
    exact ⟨h1, h2, h3, h4, h5⟩

theorem registerLoop_rest (rs : List (String × Handler)) (st : MainRun) :
    (registerLoop rs st).spawned = st.spawned ∧ (registerLoop rs st).log = st.log ∧
      (registerLoop rs st).store = st.store ∧
      (registerLoop rs st).mux.errors = st.mux.errors := by
  induction rs generalizing st with
  | nil => simp [registerLoop]
  | cons r rest ih =>
    simp only [registerLoop]
    cases hH : st.mux.Handle r.1 r.2 with
    | error msg => simp
    | ok m =>
      simp only
      obtain ⟨h1, h2, h3, h4⟩ := ih
        { mux := m, calls := st.calls ++ [MuxCall.Handle r.1 r.2], panic := st.panic,
          log := st.log, store := st.store, spawned := st.spawned }
      refine ⟨h1, h2, h3, ?_⟩
      rw [h4]
      unfold StaticServeMux.Handle at hH
      split at hH
      · cases hH
      · cases hH; rfl

/-- A registration loop that ends without a panic made every call, appended
every route in order, and met no pattern twice. -/
theorem registerLoop_ok (rs : List (String × Handler)) (st : MainRun)
    (h : (registerLoop rs st).panic = none) :
    st.panic = none ∧
    (registerLoop rs st).calls = st.calls ++ rs.map (fun r => MuxCall.Handle r.1 r.2) ∧
    (registerLoop rs st).mux.routes = st.mux.routes ++ rs ∧
    ((st.mux.routes.map Prod.fst).Nodup →
      ((registerLoop rs st).mux.routes.map Prod.fst).Nodup) := by
  induction rs generalizing st with
  | nil => simpa [registerLoop] using h
  | cons r rest ih =>
    simp only [registerLoop] at h ⊢
    cases hH : st.mux.Handle r.1 r.2 with
    | error msg => simp [hH] at h
    | ok m =>
      simp only [hH] at h ⊢
      obtain ⟨h1, h2, h3, h4⟩ := ih _ h
      unfold StaticServeMux.Handle at hH
      split at hH
      · cases hH
      · rename_i hnew
        cases hH
        refine ⟨h1, by simpa using h2, by simpa using h3, fun hnd => h4 ?_⟩
        simp only [List.map_append, List.map_cons, List.map_nil]
        rw [List.nodup_append]
        refine ⟨hnd, List.nodup_singleton _, ?_⟩
        intro a ha hb
        simp only [List.mem_singleton] at hb
        exact hnew (hb ▸ ha)

theorem registerLoop_nodup (rs : List (String × Handler)) (st : MainRun)
    (hnd : (st.mux.routes.map Prod.fst).Nodup) :
    ((registerLoop rs st).mux.routes.map Prod.fst).Nodup := by
  induction rs generalizing st with
  | nil => simpa [registerLoop] using hnd
  | cons r rest ih =>
    simp only [registerLoop]
    cases hH : st.mux.Handle r.1 r.2 with
    | error msg => simpa using hnd
    | ok m =>
      simp only
      apply ih
      unfold StaticServeMux.Handle at hH
      split at hH
      · cases hH
      · rename_i hnew
        cases hH
        simp only [List.map_append, List.map_cons, List.map_nil]
        rw [List.nodup_append]
        refine ⟨hnd, List.nodup_singleton _, ?_⟩
        intro a ha hb
        simp only [List.mem_singleton] at hb
        exact hnew (hb ▸ ha)

theorem listenerStep_rest (sem : LoopVar) (l : Listener) (st : MainRun) :
    (listenerStep sem l st).mux = st.mux ∧ (listenerStep sem l st).calls = st.calls ∧
      (listenerStep sem l st).panic = st.panic := by
  unfold listenerStep
  simp only
  split
  · exact ⟨rfl, rfl, rfl⟩
  · split <;> exact ⟨rfl, rfl, rfl⟩

theorem listenerLoop_rest (sem : LoopVar) (ls : List Listener) (st : MainRun) :
    (listenerLoop sem ls st).mux = st.mux ∧ (listenerLoop sem ls st).calls = st.calls ∧
      (listenerLoop sem ls st).panic = st.panic := by
  induction ls generalizing st with
  | nil => exact ⟨rfl, rfl, rfl⟩
  | cons l rest ih =>
    simp only [listenerLoop]
    obtain ⟨h1, h2, h3⟩ := ih (listenerStep sem l st)
    obtain ⟨g1, g2, g3⟩ := listenerStep_rest sem l st
    exact ⟨h1.trans g1, h2.trans g2, h3.trans g3⟩

theorem setupHandlers_spawned (cfg : ServerConfig) : (setupHandlers cfg).spawned = [] := by
  unfold setupHandlers
  simp only [serveLoop_eq, redirectLoop_eq]
  split
  · rw [(registerLoop_rest _ _).1, (errorLoop_rest _ _).2.2.1]
  · rw [(registerLoop_rest _ _).1, (registerLoop_rest _ _).1, (errorLoop_rest _ _).2.2.1]

theorem setupHandlers_nodup (cfg : ServerConfig) :
    ((setupHandlers cfg).mux.routes.map Prod.fst).Nodup := by
  have h0 : (((errorLoop cfg.Errors { mux := NewStaticServeMux }).mux.routes).map
      Prod.fst).Nodup := by
    rw [(errorLoop_rest _ _).2.1]
    exact List.nodup_nil
  unfold setupHandlers
  simp only [serveLoop_eq, redirectLoop_eq]
  split
  · exact registerLoop_nodup _ _ h0
  · exact registerLoop_nodup _ _ (registerLoop_nodup _ _ h0)

/-- When the registration loops end without a panic, the calls made are the
error handlers, the serves and the redirects, in that order, and the route
table holds the routes of the serves followed by those of the redirects. -/
theorem setupHandlers_ok (cfg : ServerConfig) (h : (setupHandlers cfg).panic = none) :
    (setupHandlers cfg).calls =
      cfg.Errors.map (fun e => MuxCall.HandleError e.Status e.handler) ++
        (routesOf cfg).map (fun r => MuxCall.Handle r.1 r.2) ∧
    (setupHandlers cfg).mux.routes = routesOf cfg := by
  unfold setupHandlers at h ⊢
  simp only [serveLoop_eq, redirectLoop_eq] at h ⊢
  split at h
  · rename_i hp
    rw [h] at hp
    cases hp
  · rw [if_neg (by assumption)]
    obtain ⟨r1, r2, r3, -⟩ := registerLoop_ok _ _ h
    obtain ⟨s1, s2, s3, -⟩ := registerLoop_ok _ _ r1
    rw [r2, s2, r3, s3, errorLoop_calls, (errorLoop_rest _ _).2.1]
    simp [routesOf, NewStaticServeMux]

theorem handleCalls_setup (es : List ErrorPage) (rs : List (String × Handler)) :
    handleCalls (es.map (fun e => MuxCall.HandleError e.Status e.handler) ++
      rs.map (fun r => MuxCall.Handle r.1 r.2)) = rs := by
  unfold handleCalls
  rw [List.filterMap_append]
  have h1 : List.filterMap MuxCall.route
      (es.map (fun e => MuxCall.HandleError e.Status e.handler)) = [] := by
    induction es with
    | nil => rfl
    | cons e rest ih => simp [List.filterMap_cons, MuxCall.route]
  have h2 : List.filterMap MuxCall.route (rs.map (fun r => MuxCall.Handle r.1 r.2)) = rs := by
    induction rs with
    | nil => rfl
    | cons r rest ih => simp [List.filterMap_cons, MuxCall.route, ih]
  rw [h1, h2, List.nil_append]

/-- With no listener left to visit and no goroutine created, no step changes the
process. -/
theorem Proc.step_idle (sem : LoopVar) (p : Proc) (a : Action) (ht : p.todo = [])
    (hs : p.run.spawned = []) : p.step sem a = p := by
  cases a with
  | mainIteration => simp [Proc.step, ht]
  | start k => simp [Proc.step, hs]

theorem Proc.foldl_idle (sem : LoopVar) (schedule : List Action) (p : Proc)
    (ht : p.todo = []) (hs : p.run.spawned = []) :
    schedule.foldl (Proc.step sem) p = p := by
  induction schedule with
  | nil => rfl
  | cons a rest ih => rw [List.foldl_cons, Proc.step_idle sem p a ht hs, ih]

/-! ## `main`: registration -/

/-- C4: when `main` has built its route table (no registration panicked), the
calls it made on the mux are, in order, one `HandleError` per element of
`cfg.Errors`, then one `Handle` per element of `cfg.Serves`, then one `Handle`
per element of `cfg.Redirects`; the i-th `Handle` call carries the pattern and
the handler of the i-th element of Serves ++ Redirects, and the route table
lists the routes in that same order. -/
theorem registration_order (sem : LoopVar) (cfg : ServerConfig)
    (h : (main sem cfg).panic = none) :
    (main sem cfg).calls =
      cfg.Errors.map (fun e => MuxCall.HandleError e.Status e.handler) ++
        cfg.Serves.map (fun s => MuxCall.Handle s.Path s.handler) ++
        cfg.Redirects.map (fun r => MuxCall.Handle r.From r.handler) ∧
    (∀ i : Nat, (handleCalls (main sem cfg).calls)[i]? =
      (cfg.Serves.map (fun s => (s.Path, s.handler)) ++
        cfg.Redirects.map (fun r => (r.From, r.handler)))[i]?) ∧
    (main sem cfg).mux.routes =
      cfg.Serves.map (fun s => (s.Path, s.handler)) ++
        cfg.Redirects.map (fun r => (r.From, r.handler)) := by
  have hs : (setupHandlers cfg).panic = none := by
    unfold main at h
    simp only at h
    split at h
    · exact h
    · rw [(listenerLoop_rest _ _ _).2.2] at h
      exact h
  have hm : main sem cfg = listenerLoop sem cfg.Listeners (setupHandlers cfg) := by
    unfold main
    simp [hs]
  obtain ⟨hc, hr⟩ := setupHandlers_ok cfg hs
  rw [hm, (listenerLoop_rest _ _ _).1, (listenerLoop_rest _ _ _).2.1, hc, hr]
  refine ⟨?_, ?_, rfl⟩
  · simp [routesOf, List.append_assoc, Function.comp_def]
  · intro i
    rw [handleCalls_setup]
    rfl

/-- An instance of C4: one error page, one serve and one redirect. -/
theorem registration_order_witness :
    (main .perLoop twoListeners).panic = none ∧
    (main .perLoop twoListeners).calls =
      [.HandleError 404 (.ErrorPage 404 none (some "not found")),
       .Handle "/" (.StaticServe "."),
       .Handle "/old/" (.Redirect "/new/" 302)] ∧
    (main .perLoop twoListeners).mux.routes =
      [("/", .StaticServe "."), ("/old/", .Redirect "/new/" 302)] := by
  have hp : (main .perLoop twoListeners).panic = none := by decide
  obtain ⟨h1, -, h3⟩ := registration_order .perLoop twoListeners hp
  exact ⟨hp, h1.trans rfl, h3.trans rfl⟩

/-- C1: when two routes of the configuration share a pattern (two serve paths,
two redirect sources, or a serve path and a redirect source, that is, the
patterns in registration order have a duplicate), the registration in `main`
panics; the route table never holds a pattern twice, no goroutine is created
for a listener, and no serve call is made under any schedule. -/
theorem duplicate_pattern_fails (sem : LoopVar) (cfg : ServerConfig)
    (h : ¬ (cfg.Serves.map (fun s => s.Path) ++
      cfg.Redirects.map (fun r => r.From)).Nodup) :
    (main sem cfg).panic ≠ none ∧
    (main sem cfg).spawned = [] ∧
    ((main sem cfg).mux.routes.map Prod.fst).Nodup ∧
    ∀ schedule, (Proc.exec sem cfg schedule).served = [] := by
  have hnd := setupHandlers_nodup cfg
  have hp : (setupHandlers cfg).panic ≠ none := by
    intro hnone
    obtain ⟨-, hr⟩ := setupHandlers_ok cfg hnone
    rw [hr] at hnd
    apply h
    simp [routesOf, Function.comp_def] at hnd
    exact hnd
  have hsome : (setupHandlers cfg).panic.isSome = true := by
    cases hq : (setupHandlers cfg).panic with
    | none => exact absurd hq hp
    | some m => rfl
  have hm : main sem cfg = setupHandlers cfg := by
    unfold main
    simp [hsome]
  rw [hm]
  refine ⟨hp, setupHandlers_spawned cfg, hnd, fun schedule => ?_⟩
  unfold Proc.exec
  simp only [hsome, if_true]
  rw [Proc.foldl_idle sem schedule _ rfl (setupHandlers_spawned cfg)]

/-- An instance of C1: the serve path "/docs/" is also a redirect source. -/
theorem duplicate_pattern_fails_witness :
    (main .perLoop clashing).panic = some "multiple registrations for /docs/" ∧
    (main .perLoop clashing).spawned = [] ∧
    (main .perLoop clashing).mux.routes =
      [("/", .StaticServe "."), ("/docs/", .StaticServe "docs")] ∧
    (Proc.exec .perLoop clashing [.mainIteration, .start 0]).served = [] := by
  obtain ⟨-, h2, -, h4⟩ := duplicate_pattern_fails .perLoop clashing (by decide)
  exact ⟨by decide, h2, by decide, h4 _⟩

/-! ## `main`: the listeners -/

theorem listenerStep_spawned (sem : LoopVar) (l : Listener) (st : MainRun) :
    (listenerStep sem l st).spawned.map (fun g => g.h) =
      st.spawned.map (fun g => g.h) ++ ([l].filter supported).map (listenerHandler st.mux) := by
  unfold listenerStep supported
  by_cases h1 : l.Protocol = "http"
  · simp [h1]
  · by_cases h2 : l.Protocol = "https"
    · simp [h2]
    · simp [h1, h2]

theorem listenerLoop_spawned (sem : LoopVar) (ls : List Listener) (st : MainRun) :
    (listenerLoop sem ls st).spawned.map (fun g => g.h) =
      st.spawned.map (fun g => g.h) ++ (ls.filter supported).map (listenerHandler st.mux) := by
  induction ls generalizing st with
  | nil => simp [listenerLoop]
  | cons l rest ih =>
    simp only [listenerLoop]
    rw [ih, listenerStep_spawned, (listenerStep_rest sem l st).1, List.append_assoc,
      ← List.map_append, ← List.filter_append]
    rfl

/-- C5: the handler of a listener is the mux when the listener has no headers
and no gzip, `CustomHeadersHandler` around the mux when it has headers only,
`GzipHandler` around the mux when it has gzip only, and `GzipHandler` around
`CustomHeadersHandler` around the mux when it has both; the mux at the bottom
is the one mux of `main` in every case, and the goroutines the listener loop
creates carry, in order, these handlers of the listeners with protocol "http"
or "https". -/
theorem handler_chain (sem : LoopVar) (ls : List Listener) (st : MainRun) :
    (∀ l : Listener, listenerHandler st.mux l =
      if l.Gzip then
        if l.Headers = [] then HandlerChain.GzipHandler (.mux st.mux)
        else HandlerChain.GzipHandler (.CustomHeadersHandler (.mux st.mux) l.Headers)
      else
        if l.Headers = [] then HandlerChain.mux st.mux
        else HandlerChain.CustomHeadersHandler (.mux st.mux) l.Headers) ∧
    (∀ l : Listener, (listenerHandler st.mux l).innermost = (listenerLoop sem ls st).mux) ∧
    (listenerLoop sem ls st).spawned.map (fun g => g.h) =
      st.spawned.map (fun g => g.h) ++ (ls.filter supported).map (listenerHandler st.mux) := by
  have hchain : ∀ l : Listener, listenerHandler st.mux l =
      if l.Gzip then
        if l.Headers = [] then HandlerChain.GzipHandler (.mux st.mux)
        else HandlerChain.GzipHandler (.CustomHeadersHandler (.mux st.mux) l.Headers)
      else
        if l.Headers = [] then HandlerChain.mux st.mux
        else HandlerChain.CustomHeadersHandler (.mux st.mux) l.Headers := by
    intro l
    unfold listenerHandler
    cases hz : l.Gzip <;> cases hh : l.Headers <;> simp
  refine ⟨hchain, ?_, ?_⟩
  · intro l
    rw [(listenerLoop_rest sem ls st).1, hchain l]
    cases l.Gzip <;> cases l.Headers <;> simp [HandlerChain.innermost]
  · exact listenerLoop_spawned sem ls st

/-- An instance of C5: a listener with headers and gzip gets gzip around the
headers around the mux, and both goroutines of the two-listener configuration
carry gzip around the mux. -/
theorem handler_chain_witness :
    listenerHandler (setupHandlers twoListeners).mux
        { Protocol := "http", Gzip := true, Headers := [("X-Frame-Options", "DENY")] } =
      .GzipHandler (.CustomHeadersHandler (.mux (setupHandlers twoListeners).mux)
        [("X-Frame-Options", "DENY")]) ∧
    (main .perLoop twoListeners).spawned.map (fun g => g.h) =
      [.GzipHandler (.mux (setupHandlers twoListeners).mux),
       .GzipHandler (.mux (setupHandlers twoListeners).mux)] := by
  obtain ⟨h1, -, h3⟩ := handler_chain .perLoop twoListeners.Listeners (setupHandlers twoListeners)
  exact ⟨(h1 _).trans rfl, h3.trans (by decide)⟩

/-- C10: in the goroutine of a listener, a serve call that returns an error ends
the process through `log.Fatalln` with a non-zero exit code, and the
"listening on" line is logged only after a serve call that returned nil. -/
theorem serve_error_is_fatal (g : Goroutine) (store : List Listener) (res : ServeResult) :
    (∀ err, res = .returned (some err) →
      ∃ code, g.after store res = .fatal code ∧ code ≠ 0) ∧
    (∀ addr protocol, g.after store res = .listening addr protocol →
      res = .returned none) := by
  constructor
  · rintro err rfl
    exact ⟨1, rfl, by decide⟩
  · intro addr protocol h
    cases res with
    | serving => simp [Goroutine.after] at h
    | returned err =>
      cases err with
      | none => rfl
      | some e => simp [Goroutine.after] at h

/-- Instances of C10: an address already in use ends the process with status 1;
a goroutine that logged the listening line had a serve call return nil. -/
theorem serve_error_is_fatal_witness :
    (∃ code, Goroutine.after { tls := false, listener := 0, h := .mux NewStaticServeMux }
        twoListeners.Listeners (.returned (some "bind: address already in use")) = .fatal code ∧
      code ≠ 0) ∧
    ServeResult.returned none = .returned none :=
  ⟨(serve_error_is_fatal { tls := false, listener := 0, h := .mux NewStaticServeMux }
      twoListeners.Listeners (.returned (some "bind: address already in use"))).1 _ rfl,
   (serve_error_is_fatal { tls := false, listener := 0, h := .mux NewStaticServeMux }
      twoListeners.Listeners (.returned none)).2 ":8080" "http" rfl⟩

/-- C6, the code at a configuration with an http listener on ":8080" followed by
an https listener on ":8443", with the loop variable of Go before 1.22: when
both goroutines start after the loop has ended, the goroutine created for the
first listener calls `ListenAndServe` with the address ":8443" of the second
one; when each starts within the iteration that created it, each binds its own
address. -/
theorem listener_variable_is_shared :
    twoListeners.Listeners.map (fun l => (l.Protocol, l.Addr)) =
      [("http", ":8080"), ("https", ":8443")] ∧
    (Proc.exec .perLoop twoListeners
        [.mainIteration, .mainIteration, .start 0, .start 1]).served =
      [(0, .ListenAndServe ":8443" (.GzipHandler (.mux (setupHandlers twoListeners).mux))),
       (1, .ListenAndServeTLS ":8443" "cert.pem" "key.pem"
         (.GzipHandler (.mux (setupHandlers twoListeners).mux)))] ∧
    (Proc.exec .perLoop twoListeners
        [.mainIteration, .start 0, .mainIteration, .start 1]).served =
      [(0, .ListenAndServe ":8080" (.GzipHandler (.mux (setupHandlers twoListeners).mux))),
       (1, .ListenAndServeTLS ":8443" "cert.pem" "key.pem"
         (.GzipHandler (.mux (setupHandlers twoListeners).mux)))] := by
  refine ⟨by decide, by decide, by decide⟩

/-! ## The listener goroutines when every iteration has its own variable -/

theorem ownVariables_step (l : Listener) (st : MainRun) (h : OwnVariables st) :
    OwnVariables (listenerStep .perIteration l st) ∧
      (listenerStep .perIteration l st).store = st.store ++ [l] := by
  obtain ⟨hlen, hall⟩ := h
  have hold : ∀ (k : Nat) (g : Goroutine), st.spawned[k]? = some g →
      ∃ l', (st.store.filter supported)[k]? = some l' ∧
        (st.store ++ [l])[g.listener]? = some l' ∧
        g.call (st.store ++ [l]) = ownCall st.mux l' := by
    intro k g hk
    obtain ⟨l', h1, h2, h3⟩ := hall k g hk
    have hlt : g.listener < st.store.length := (List.getElem?_eq_some.1 h2).1
    have h2' : (st.store ++ [l])[g.listener]? = some l' := by
      rw [List.getElem?_append_left hlt]
      exact h2
    refine ⟨l', h1, h2', ?_⟩
    rw [← h3]
    simp only [Goroutine.call, Goroutine.read, List.getD_eq_getElem?_getD, h2, h2']
  have hnew : ∀ (tls : Bool), (tls = true ↔ l.Protocol ≠ "http") →
      ({ tls := tls, listener := st.store.length,
         h := listenerHandler st.mux l } : Goroutine).call (st.store ++ [l]) =
        ownCall st.mux l := by
    intro tls htls
    simp only [Goroutine.call, Goroutine.read, List.getD_eq_getElem?_getD,
      List.getElem?_concat_length, Option.getD_some, ownCall]
    by_cases hp : l.Protocol = "http"
    · have : tls = false := by
        cases tls
        · rfl
        · exact absurd hp (htls.1 rfl)
      simp [this, hp]
    · have : tls = true := htls.2 hp
      simp [this, hp]
  have hsup : ∀ (tls : Bool), (tls = true ↔ l.Protocol ≠ "http") → supported l = true →
      OwnVariables { st with
        store := st.store ++ [l]
        log := st.log ++ [LogLine.listen, LogLine.listener l]
        spawned := st.spawned ++
          [{ tls := tls, listener := st.store.length, h := listenerHandler st.mux l }] } := by
    intro tls htls hs
    constructor
    · simp [List.filter_append, hs, hlen]
    · intro k g hk
      simp only [List.filter_append, List.filter_cons, hs, if_true, List.filter_nil]
      by_cases hlt : k < st.spawned.length
      · rw [List.getElem?_append_left hlt] at hk
        obtain ⟨l', h1, h2, h3⟩ := hold k g hk
        refine ⟨l', ?_, h2, h3⟩
        rw [List.getElem?_append_left (hlen ▸ hlt)]
        exact h1
      · have hge : st.spawned.length ≤ k := Nat.le_of_not_lt hlt
        rw [List.getElem?_append_right hge] at hk
        have hk0 : k - st.spawned.length = 0 := by
          by_contra hne
          obtain ⟨m, hm⟩ := Nat.exists_eq_succ_of_ne_zero hne
          rw [hm] at hk
          simp at hk
        rw [hk0] at hk
        simp only [List.getElem?_cons_zero, Option.some.injEq] at hk
        subst hk
        have hkeq : k = (st.store.filter supported).length := by omega
        refine ⟨l, ?_, ?_, hnew tls htls⟩
        · rw [hkeq]
          exact List.getElem?_concat_length _ _
        · exact List.getElem?_concat_length _ _
  unfold listenerStep
  simp only
  by_cases hp : l.Protocol = "http"
  · rw [if_pos hp]
    exact ⟨hsup false (by simp [hp]) (by simp [supported, hp]), rfl⟩
  · rw [if_neg hp]
    by_cases hq : l.Protocol = "https"
    · rw [if_pos hq]
      exact ⟨hsup true (by simp [hp]) (by simp [supported, hq]), rfl⟩
    · rw [if_neg hq]
      refine ⟨⟨?_, ?_⟩, rfl⟩
      · simp [List.filter_append, supported, hp, hq, hlen]
      · intro k g hk
        obtain ⟨l', h1, h2, h3⟩ := hold k g hk
        refine ⟨l', ?_, h2, h3⟩
        simp [List.filter_append, supported, hp, hq]
        simpa [supported] using h1

theorem Proc.step_main_nil (sem : LoopVar) (p : Proc) (h : p.todo = []) :
    p.step sem .mainIteration = p := by
  simp [Proc.step, h]

theorem Proc.step_main_cons (sem : LoopVar) (p : Proc) (l : Listener) (rest : List Listener)
    (h : p.todo = l :: rest) :
    p.step sem .mainIteration = { p with todo := rest, run := listenerStep sem l p.run } := by
  simp [Proc.step, h]

theorem Proc.step_start (sem : LoopVar) (p : Proc) (k : Nat) :
    p.step sem (.start k) =
      match p.run.spawned[k]? with
      | none => p
      | some g =>
        if k ∈ p.served.map Prod.fst then p
        else { p with served := p.served ++ [(k, g.call p.run.store)] } := by
  simp [Proc.step]

theorem ownCalls_step (ls : List Listener) (mux : StaticServeMux) (p : Proc) (a : Action)
    (h : OwnCalls ls mux p) : OwnCalls ls mux (p.step .perIteration a) := by
  obtain ⟨hown, hls, hmux, hserved⟩ := h
  cases a with
  | mainIteration =>
    cases htodo : p.todo with
    | nil =>
      rw [Proc.step_main_nil _ p htodo]
      exact ⟨hown, hls, hmux, hserved⟩
    | cons l rest =>
      rw [Proc.step_main_cons _ p l rest htodo]
      obtain ⟨hown', hstore⟩ := ownVariables_step l p.run hown
      refine ⟨hown', ?_, ?_, hserved⟩
      · show (listenerStep .perIteration l p.run).store ++ rest = ls
        rw [hstore, ← hls, htodo]
        simp
      · show (listenerStep .perIteration l p.run).mux = mux
        rw [(listenerStep_rest _ l p.run).1]
        exact hmux
  | start k =>
    rw [Proc.step_start]
    cases hg : p.run.spawned[k]? with
    | none => exact ⟨hown, hls, hmux, hserved⟩
    | some g =>
      simp only
      split
      · exact ⟨hown, hls, hmux, hserved⟩
      · refine ⟨hown, hls, hmux, ?_⟩
        intro k' c hmem
        simp only [List.mem_append, List.mem_singleton, Prod.mk.injEq] at hmem
        rcases hmem with hmem | ⟨rfl, rfl⟩
        · exact hserved k' c hmem
        · obtain ⟨l, h1, -, h3⟩ := hown.2 k' g hg
          refine ⟨l, ?_, by rw [h3, hmux]⟩
          have hlt : k' < (p.run.store.filter supported).length :=
            (List.getElem?_eq_some.1 h1).1
          rw [← hls, List.filter_append, List.getElem?_append_left hlt]
          exact h1

theorem ownCalls_foldl (ls : List Listener) (mux : StaticServeMux) (schedule : List Action)
    (p : Proc) (h : OwnCalls ls mux p) :
    OwnCalls ls mux (schedule.foldl (Proc.step .perIteration) p) := by
  induction schedule generalizing p with
  | nil => exact h
  | cons a rest ih => exact ih _ (ownCalls_step ls mux p a h)

theorem setupHandlers_store (cfg : ServerConfig) : (setupHandlers cfg).store = [] := by
  unfold setupHandlers
  simp only [serveLoop_eq, redirectLoop_eq]
  split
  · rw [(registerLoop_rest _ _).2.2.1, (errorLoop_rest _ _).2.2.2.2]
  · rw [(registerLoop_rest _ _).2.2.1, (registerLoop_rest _ _).2.2.1,
      (errorLoop_rest _ _).2.2.2.2]

/-- With a variable of its own in every iteration (Go 1.22 and later), under
every schedule each serve call made is the own call of the listener whose
iteration created the goroutine: that listener's address, handler chain and,
for https, certificate and key files. -/
theorem own_listener_per_iteration (cfg : ServerConfig) (schedule : List Action)
    (k : Nat) (c : ServeCall)
    (h : (k, c) ∈ (Proc.exec .perIteration cfg schedule).served) :
    ∃ l, (cfg.Listeners.filter supported)[k]? = some l ∧
      c = ownCall (setupHandlers cfg).mux l := by
  unfold Proc.exec at h
  simp only at h
  by_cases hp : (setupHandlers cfg).panic.isSome = true
  · rw [if_pos hp, Proc.foldl_idle _ schedule _ rfl (setupHandlers_spawned cfg)] at h
    cases h
  · rw [if_neg hp] at h
    have h0 : OwnCalls cfg.Listeners (setupHandlers cfg).mux
        { todo := cfg.Listeners, run := setupHandlers cfg } := by
      refine ⟨⟨?_, ?_⟩, ?_, rfl, ?_⟩
      · simp [setupHandlers_store, setupHandlers_spawned]
      · intro k g hk
        simp [setupHandlers_spawned] at hk
      · simp [setupHandlers_store]
      · intro k c hk
        cases hk
    exact (ownCalls_foldl _ _ schedule _ h0).2.2.2 k c h

/-- An instance: with per-iteration variables the late schedule makes each
goroutine bind its own address. -/
theorem own_listener_per_iteration_example :
    (Proc.exec .perIteration twoListeners
        [.mainIteration, .mainIteration, .start 0, .start 1]).served =
      [(0, ownCall (setupHandlers twoListeners).mux
            { Protocol := "http", Addr := ":8080", Gzip := true }),
       (1, ownCall (setupHandlers twoListeners).mux
            { Protocol := "https", Addr := ":8443", Gzip := true,
              KeyFile := "key.pem", CertFile := "cert.pem" })] := by
  decide

end Goserve
